import Mathlib

/-!
Shallow embedding of the OpenClaw Outlook mailbox bridge
(src/extensions/outlook: token.ts, graph.ts, monitor.ts, outbound.ts,
channel.ts).  Network effects are modelled as explicit event traces:
each Graph API call the code would issue becomes a `GraphCall` value in
the trace, the agent dispatch becomes a list of delivered payloads, and
the poll loop becomes a recursion over scripted poll cycles.  Times are
in milliseconds (`Nat`), matching `Date.now()` arithmetic in the source.
-/

/-- Credentials for the Graph API, from token.ts `OutlookCredentials`. -/
structure OutlookCredentials where
  appId : String
  appSecret : String
  tenantId : String
deriving Repr, DecidableEq

/-- Channel configuration, from token.ts `OutlookChannelConfig`.
Optional fields model the `?:` TypeScript fields. -/
structure OutlookChannelConfig where
  enabled : Option Bool := none
  appId : Option String := none
  appPassword : Option String := none
  tenantId : Option String := none
  mailbox : Option String := none
  pollIntervalMs : Option Nat := none
  draftOnly : Option Bool := none
deriving Repr, DecidableEq

/-- The `channels` record of the host config (only the `outlook` key is
read by this subsystem: `cfg.channels?.outlook`). -/
structure ChannelsCfg where
  outlook : Option OutlookChannelConfig := none
deriving Repr, DecidableEq

/-- Host configuration as seen by the plugin (`OpenClawConfig`). -/
structure OpenClawCfg where
  channels : Option ChannelsCfg := none
deriving Repr, DecidableEq

/-- token.ts `resolveOutlookChannelConfig`: returns `cfg.channels?.outlook`. -/
def resolveOutlookChannelConfig (cfg : OpenClawCfg) : Option OutlookChannelConfig :=
  cfg.channels.bind ChannelsCfg.outlook

/-- Environment fallbacks read by `resolveOutlookCredentials`
(OUTLOOK_APP_ID, OUTLOOK_APP_SECRET, OUTLOOK_TENANT_ID). -/
structure EnvVars where
  outlookAppId : Option String := none
  outlookAppSecret : Option String := none
  outlookTenantId : Option String := none
deriving Repr, DecidableEq

/-- Whitespace recognized when trimming. -/
def isWhitespaceChar (c : Char) : Bool :=
  c = ' ' || c = '\t' || c = '\n' || c = '\r'

/-- JS `String.prototype.trim`: strip leading and trailing whitespace,
as a direct computation over the string's characters. -/
def trimString (s : String) : String :=
  String.mk (((s.data.dropWhile isWhitespaceChar).reverse.dropWhile
    isWhitespaceChar).reverse)

/-- JS `a?.trim() || b?.trim()`: the left side wins when present and
nonempty after trimming; otherwise the right side (trimmed) is used. -/
def trimOrElse (a b : Option String) : Option String :=
  match a.map trimString with
  | some s => if s = "" then b.map trimString else some s
  | none => b.map trimString

/-- JS truthiness of an optional string: present and nonempty. -/
def truthyStr : Option String → Bool
  | some s => s ≠ ""
  | none => false

/-- token.ts `resolveOutlookCredentials`: each credential field falls
back to its environment variable; all three must be nonempty. -/
def resolveOutlookCredentials (oc : Option OutlookChannelConfig) (env : EnvVars) :
    Option OutlookCredentials :=
  let appId := trimOrElse (oc.bind OutlookChannelConfig.appId) env.outlookAppId
  let appSecret := trimOrElse (oc.bind OutlookChannelConfig.appPassword) env.outlookAppSecret
  let tenantId := trimOrElse (oc.bind OutlookChannelConfig.tenantId) env.outlookTenantId
  if truthyStr appId && truthyStr appSecret && truthyStr tenantId then
    some { appId := appId.getD "", appSecret := appSecret.getD "", tenantId := tenantId.getD "" }
  else
    none

/-- token.ts module-level `tokenCache` entry: token plus expiry instant (ms). -/
structure CachedToken where
  token : String
  expiresAt : Nat
deriving Repr, DecidableEq

/-- Successful response of the OAuth2 client-credentials endpoint:
`access_token` and `expires_in` (seconds). -/
structure TokenResponse where
  accessToken : String
  expiresIn : Nat
deriving Repr, DecidableEq

/-- Result of one `getGraphAccessToken` call: the token handed back, the
cache state afterwards, and how many network token requests were made. -/
structure TokenResult where
  token : String
  cache : Option CachedToken
  networkCalls : Nat
deriving Repr, DecidableEq

/-- token.ts `getGraphAccessToken` on the success path, as a pure
function of the cache state, the current time `now` (ms), and the
response the token endpoint would return.  The cached token is reused
only while it has more than 60 s of validity left
(`tokenCache.expiresAt > now + 60_000`); otherwise one request is made
and the cache is replaced with expiry `now + expires_in * 1000`. -/
def getGraphAccessToken (cache : Option CachedToken) (now : Nat)
    (resp : TokenResponse) : TokenResult :=
  match cache with
  | some tc =>
    if tc.expiresAt > now + 60000 then
      { token := tc.token, cache := some tc, networkCalls := 0 }
    else
      { token := resp.accessToken
        cache := some { token := resp.accessToken, expiresAt := now + resp.expiresIn * 1000 }
        networkCalls := 1 }
  | none =>
    { token := resp.accessToken
      cache := some { token := resp.accessToken, expiresAt := now + resp.expiresIn * 1000 }
      networkCalls := 1 }

/-- A message snapshot from the Graph API, graph.ts `GraphMessage`.
`receivedDateTime` is modelled as the epoch-millisecond value the code
obtains via `new Date(msg.receivedDateTime).getTime()`.  The `from`
address and name are optional, mirroring `msg.from?.emailAddress?.…`. -/
structure GraphMessage where
  id : String
  subject : String := ""
  bodyContent : Option String := none
  fromAddress : Option String := none
  fromName : Option String := none
  receivedDateTime : Nat := 0
  isRead : Bool := false
  conversationId : Option String := none
deriving Repr, DecidableEq

/-- One Graph API call issued by the bridge. -/
inductive GraphCall where
  | listUnread (mailbox : String) (top : Nat)
  | markRead (mailbox msgId : String)
  | reply (mailbox msgId text : String)
  | createDraftReply (mailbox msgId text : String)
  | sendMail (mailbox recipient subject body : String)
deriving Repr, DecidableEq

/-- Query parameters of graph.ts `listUnreadMessages`. -/
structure ListRequest where
  mailbox : String
  filter : String
  orderby : String
  top : Nat
  select : String
deriving Repr, DecidableEq

/-- The request `listUnreadMessages` builds: filter unread, ask the
server for ascending receive time, cap at `top`, project fields. -/
def listUnreadRequest (mailbox : String) (top : Nat) : ListRequest :=
  { mailbox := mailbox
    filter := "isRead eq false"
    orderby := "receivedDateTime asc"
    top := top
    select := "id,subject,body,from,receivedDateTime,isRead,conversationId" }

/-- graph.ts `listUnreadMessages` on the success path: it sends the
request and returns the transport's `data.value` unchanged — no local
sorting is applied. -/
def listUnreadMessages (transport : ListRequest → List GraphMessage)
    (mailbox : String) (top : Nat := 20) : List GraphMessage :=
  transport (listUnreadRequest mailbox top)

/-- Non-decreasing receive-time order of a message list. -/
def ascendingByReceived : List GraphMessage → Bool
  | [] => true
  | [_] => true
  | a :: b :: rest =>
    decide (a.receivedDateTime ≤ b.receivedDateTime) && ascendingByReceived (b :: rest)

/-- monitor.ts: `msg.from?.emailAddress?.address ?? "unknown"`. -/
def senderAddress (msg : GraphMessage) : String :=
  msg.fromAddress.getD "unknown"

/-- monitor.ts: `msg.from?.emailAddress?.name || senderAddress`
(JS `||`: an absent or empty name falls back to the address). -/
def senderName (msg : GraphMessage) : String :=
  match msg.fromName with
  | some n => if n = "" then senderAddress msg else n
  | none => senderAddress msg

/-- monitor.ts: `msg.body?.content?.trim() || "(empty)"`. -/
def inboundText (msg : GraphMessage) : String :=
  match msg.bodyContent with
  | some c => if trimString c = "" then "(empty)" else trimString c
  | none => "(empty)"

/-- JS `String.prototype.toLowerCase` on the ASCII range, as a direct
map over the string's characters. -/
def lowerString (s : String) : String :=
  String.mk (s.data.map Char.toLower)

/-- monitor.ts: one session per sender address,
`` `outlook:${senderAddress.toLowerCase()}` ``. -/
def sessionKey (msg : GraphMessage) : String :=
  "outlook:" ++ lowerString (senderAddress msg)

/-- The normalized inbound context handed to
`core.channel.reply.finalizeInboundContext` in monitor.ts (field for
field the object literal built there; `Timestamp` is the epoch-ms value
of `receivedDateTime`). -/
structure InboundCtx where
  Body : String
  RawBody : String
  CommandBody : String
  From : String
  To : String
  SessionKey : String
  AccountId : String
  ChatType : String
  ConversationLabel : String
  SenderName : String
  SenderId : String
  Provider : String
  Surface : String
  MessageSid : String
  Timestamp : Nat
  WasMentioned : Bool
  CommandAuthorized : Bool
  OriginatingChannel : String
  OriginatingTo : String
deriving Repr, DecidableEq

/-- Builds the inbound context exactly as monitor.ts does. -/
def buildInboundCtx (mailbox : String) (msg : GraphMessage) : InboundCtx :=
  { Body := inboundText msg
    RawBody := inboundText msg
    CommandBody := inboundText msg
    From := senderAddress msg
    To := mailbox
    SessionKey := sessionKey msg
    AccountId := "default"
    ChatType := "direct"
    ConversationLabel := senderName msg
    SenderName := senderName msg
    SenderId := senderAddress msg
    Provider := "outlook"
    Surface := "outlook"
    MessageSid := msg.id
    Timestamp := msg.receivedDateTime
    WasMentioned := true
    CommandAuthorized := true
    OriginatingChannel := "outlook"
    OriginatingTo := mailbox }

/-- Whether a payload delivered to the sink is an interim chunk or the
final one (`kind === "final"`). -/
inductive ChunkKind where
  | interim
  | final
deriving Repr, DecidableEq

/-- One invocation of the `deliver` sink: `payload.text` (empty string
models a falsy / absent text) and the delivery kind. -/
structure DeliverPayload where
  text : String
  kind : ChunkKind
deriving Repr, DecidableEq

/-- Observable events of one monitor run, in order: Graph API calls,
sink invocations, the start of the agent dispatch (carrying the context
handed over), log lines, and the dispatch-idle notification. -/
inductive Event where
  | call (c : GraphCall)
  | chunk (p : DeliverPayload)
  | dispatchStart (ctx : InboundCtx)
  | logDebug (s : String)
  | logInfo (s : String)
  | logError (s : String)
  | dispatchIdle
deriving Repr, DecidableEq

/-- State of the `deliver` callback: events emitted so far and the
`replyBuffer` contents. -/
structure DeliverAcc where
  events : List Event
  buffer : List String
deriving Repr, DecidableEq

/-- One invocation of the `deliver` callback in monitor.ts: push a
nonempty `payload.text` onto the buffer; on `kind === "final"` with a
nonempty buffer, join the buffer with blank lines, clear it, and either
create a draft reply (draftOnly) or send the reply, logging either way.
`draftId` is the id the provider would return for the created draft. -/
def deliverStep (draftOnly : Bool) (mailbox msgId draftId : String)
    (acc : DeliverAcc) (p : DeliverPayload) : DeliverAcc :=
  let events := acc.events ++ [Event.chunk p]
  let buffer := if p.text = "" then acc.buffer else acc.buffer ++ [p.text]
  if p.kind = ChunkKind.final ∧ buffer ≠ [] then
    let replyText := String.intercalate "\n\n" buffer
    if draftOnly then
      { events := events ++
        [Event.call (GraphCall.createDraftReply mailbox msgId replyText),
         Event.logInfo ("[outlook] draft created id=" ++ draftId ++ " for message=" ++
           msgId ++ " (" ++ toString replyText.length ++ " chars)")]
        buffer := [] }
    else
      { events := events ++
        [Event.call (GraphCall.reply mailbox msgId replyText),
         Event.logInfo ("[outlook] replied to id=" ++ msgId ++ " (" ++
           toString replyText.length ++ " chars)")]
        buffer := [] }
  else
    { events := events, buffer := buffer }

/-- Trace of the `deliver` callback over a whole dispatch, starting from
an empty buffer. -/
def deliverEvents (draftOnly : Bool) (mailbox msgId draftId : String)
    (chunks : List DeliverPayload) : List Event :=
  (List.foldl (deliverStep draftOnly mailbox msgId draftId)
    { events := [], buffer := [] } chunks).events

/-- The Graph API calls occurring in a trace, in order. -/
def traceCalls (tr : List Event) : List GraphCall :=
  tr.filterMap fun e =>
    match e with
    | Event.call c => some c
    | _ => none

/-- The texts the `deliver` callback pushes onto the buffer: the
nonempty chunk texts, in arrival order. -/
def pushedTexts (chunks : List DeliverPayload) : List String :=
  chunks.filterMap fun p => if p.text = "" then none else some p.text

/-- Graph calls issued by the `deliver` callback over a dispatch. -/
def deliverCalls (draftOnly : Bool) (mailbox msgId draftId : String)
    (chunks : List DeliverPayload) : List GraphCall :=
  traceCalls (deliverEvents draftOnly mailbox msgId draftId chunks)

/-- Outcome of one `dispatchReplyFromConfig` call: the payloads it
delivers to the sink, and the error it throws afterwards, if any. -/
structure DispatchOutcome where
  chunks : List DeliverPayload
  error : Option String := none
deriving Repr, DecidableEq

/-- monitor.ts `processMessage` as an event trace (success path of
`markAsRead`): debug log, mark read, hand the context to the dispatch,
run the sink over the dispatched chunks, log a caught dispatch error if
one is thrown, and always notify dispatch-idle (the `finally`). -/
def processMessage (mailbox : String) (msg : GraphMessage) (draftOnly : Bool)
    (draftId : String) (dispatch : DispatchOutcome) : List Event :=
  Event.logDebug ("[outlook] processing id=" ++ msg.id ++ " from=" ++ senderAddress msg) ::
  Event.call (GraphCall.markRead mailbox msg.id) ::
  Event.dispatchStart (buildInboundCtx mailbox msg) ::
  (deliverEvents draftOnly mailbox msg.id draftId dispatch.chunks ++
    (match dispatch.error with
     | some e => [Event.logError ("[outlook] dispatch failed for id=" ++ msg.id ++ ": " ++ e)]
     | none => []) ++
    [Event.dispatchIdle])

/-- monitor.ts: `const draftOnly = oc?.draftOnly !== false` — drafts are
the default unless the config explicitly says `false`. -/
def resolveDraftOnly (oc : Option OutlookChannelConfig) : Bool :=
  if oc.bind OutlookChannelConfig.draftOnly = some false then false else true

/-- monitor.ts: `const pollMs = oc?.pollIntervalMs ?? 15_000`. -/
def resolvePollIntervalMs (oc : Option OutlookChannelConfig) : Nat :=
  (oc.bind OutlookChannelConfig.pollIntervalMs).getD 15000

/-- One unread message of a poll cycle together with the scripted
behaviour of its processing: the draft id the provider would assign and
the agent dispatch outcome. -/
structure MsgWork where
  msg : GraphMessage
  draftId : String := ""
  dispatch : DispatchOutcome
deriving Repr, DecidableEq

/-- One iteration of the monitor's `while` body (success path of
`listUnreadMessages`, no abort during the cycle): list unread, then
process each returned message strictly in order. -/
def processCycle (mailbox : String) (draftOnly : Bool) (work : List MsgWork) : List Event :=
  Event.call (GraphCall.listUnread mailbox 20) ::
  (work.map fun w => processMessage mailbox w.msg draftOnly w.draftId w.dispatch).flatten

/-- Script for one poll cycle: the unread messages fetched, and whether
the abort signal fires during the inter-cycle sleep that follows. -/
structure CycleScript where
  work : List MsgWork
  abortDuringSleep : Bool := false
deriving Repr, DecidableEq

/-- monitor.ts `monitorOutlookEmail` main loop over scripted cycles.
An empty script models the abort signal observed at the `while` guard;
a cycle whose sleep is aborted makes `sleep` reject, which `break`s the
loop — nothing after that cycle is ever executed. -/
def monitorRun (mailbox : String) (draftOnly : Bool) : List CycleScript → List Event
  | [] => []
  | c :: rest =>
    processCycle mailbox draftOnly c.work ++
      (if c.abortDuringSleep then [] else monitorRun mailbox draftOnly rest)

/-- Control states of the poll loop (spec §4.3): processing a cycle,
sleeping between cycles, stopped. -/
inductive PollerState where
  | Polling
  | Sleeping
  | Stopped
deriving Repr, DecidableEq

/-- One transition of the poll loop, given whether the abort signal has
fired: an aborted `while` guard or an aborted sleep stops the loop;
otherwise a finished cycle starts the sleep and an elapsed sleep starts
the next cycle.  Stopped has no outgoing transition. -/
def pollerStep (s : PollerState) (aborted : Bool) : PollerState :=
  match s, aborted with
  | PollerState.Polling, true => PollerState.Stopped
  | PollerState.Polling, false => PollerState.Sleeping
  | PollerState.Sleeping, true => PollerState.Stopped
  | PollerState.Sleeping, false => PollerState.Polling
  | PollerState.Stopped, _ => PollerState.Stopped

/-- Errors `outlookOutbound.sendText` throws before any send. -/
inductive OutboundError where
  | credentialsNotConfigured
  | mailboxNotConfigured
deriving Repr, DecidableEq

/-- Value returned by `outlookOutbound.sendText` on success. -/
structure SendResult where
  channel : String
  messageId : String
deriving Repr, DecidableEq

/-- outbound.ts `outlookOutbound.sendText`: resolve config and
credentials, require a nonempty trimmed mailbox, then issue exactly one
`sendMail` with the fixed subject "Message from OpenClaw". -/
def outlookSendText (cfg : OpenClawCfg) (env : EnvVars) (recipient text : String) :
    Except OutboundError (SendResult × List GraphCall) :=
  let oc := resolveOutlookChannelConfig cfg
  match resolveOutlookCredentials oc env with
  | none => Except.error OutboundError.credentialsNotConfigured
  | some _ =>
    match (oc.bind OutlookChannelConfig.mailbox).map trimString with
    | none => Except.error OutboundError.mailboxNotConfigured
    | some mb =>
      if mb = "" then Except.error OutboundError.mailboxNotConfigured
      else
        Except.ok ({ channel := "outlook", messageId := "sent" },
          [GraphCall.sendMail mb recipient "Message from OpenClaw" text])

/-- Replaces the `draftOnly` field of the outlook channel config. -/
def setDraftOnly (cfg : OpenClawCfg) (d : Option Bool) : OpenClawCfg :=
  { cfg with channels := cfg.channels.map fun ch =>
      { ch with outlook := ch.outlook.map fun oc => { oc with draftOnly := d } } }

@[simp] theorem traceCalls_nil : traceCalls [] = [] := rfl

@[simp] theorem traceCalls_cons_call (c : GraphCall) (tr : List Event) :
    traceCalls (Event.call c :: tr) = c :: traceCalls tr := rfl

@[simp] theorem traceCalls_cons_chunk (p : DeliverPayload) (tr : List Event) :
    traceCalls (Event.chunk p :: tr) = traceCalls tr := rfl

@[simp] theorem traceCalls_cons_dispatchStart (ctx : InboundCtx) (tr : List Event) :
    traceCalls (Event.dispatchStart ctx :: tr) = traceCalls tr := rfl

@[simp] theorem traceCalls_cons_logDebug (s : String) (tr : List Event) :
    traceCalls (Event.logDebug s :: tr) = traceCalls tr := rfl

@[simp] theorem traceCalls_cons_logInfo (s : String) (tr : List Event) :
    traceCalls (Event.logInfo s :: tr) = traceCalls tr := rfl

@[simp] theorem traceCalls_cons_logError (s : String) (tr : List Event) :
    traceCalls (Event.logError s :: tr) = traceCalls tr := rfl

@[simp] theorem traceCalls_cons_dispatchIdle (tr : List Event) :
    traceCalls (Event.dispatchIdle :: tr) = traceCalls tr := rfl

@[simp] theorem traceCalls_append (a b : List Event) :
    traceCalls (a ++ b) = traceCalls a ++ traceCalls b := by
  simp [traceCalls, List.filterMap_append]

@[simp] theorem traceCalls_map_chunk (l : List DeliverPayload) :
    traceCalls (l.map Event.chunk) = [] := by
  induction l with
  | nil => rfl
  | cons p ps ih => simpa using ih

@[simp] theorem pushedTexts_nil : pushedTexts [] = [] := rfl

@[simp] theorem pushedTexts_append (a b : List DeliverPayload) :
    pushedTexts (a ++ b) = pushedTexts a ++ pushedTexts b := by
  simp [pushedTexts, List.filterMap_append]

theorem pushedTexts_cons (p : DeliverPayload) (ps : List DeliverPayload) :
    pushedTexts (p :: ps) =
      if p.text = "" then pushedTexts ps else p.text :: pushedTexts ps := by
  by_cases h : p.text = "" <;> simp [pushedTexts, List.filterMap_cons, h]

/-- Interim deliveries only accumulate: the sink records the chunk and
pushes its nonempty text, but never issues a Graph call. -/
theorem foldl_deliverStep_interim (d : Bool) (mailbox msgId draftId : String) :
    ∀ (pre : List DeliverPayload), (∀ p ∈ pre, p.kind = ChunkKind.interim) →
    ∀ (acc : DeliverAcc),
      List.foldl (deliverStep d mailbox msgId draftId) acc pre =
        { events := acc.events ++ pre.map Event.chunk
          buffer := acc.buffer ++ pushedTexts pre } := by
  intro pre
  induction pre with
  | nil => intro _ acc; simp
  | cons p ps ih =>
    intro h acc
    have hp : p.kind = ChunkKind.interim := h p (List.mem_cons_self p ps)
    have hps : ∀ q ∈ ps, q.kind = ChunkKind.interim :=
      fun q hq => h q (List.mem_cons_of_mem p hq)
    have hstep : deliverStep d mailbox msgId draftId acc p =
        { events := acc.events ++ [Event.chunk p]
          buffer := if p.text = "" then acc.buffer else acc.buffer ++ [p.text] } := by
      simp [deliverStep, hp]
    rw [List.foldl_cons, hstep, ih hps]
    by_cases ht : p.text = "" <;> simp [ht, pushedTexts_cons]

/-- If no delivered payload carries a nonempty text, the buffer stays
empty and the sink never issues a Graph call, final signal or not. -/
theorem foldl_deliverStep_all_empty (d : Bool) (mailbox msgId draftId : String) :
    ∀ (chunks : List DeliverPayload), (∀ p ∈ chunks, p.text = "") →
    ∀ (evs : List Event),
      List.foldl (deliverStep d mailbox msgId draftId) { events := evs, buffer := [] } chunks =
        { events := evs ++ chunks.map Event.chunk, buffer := [] } := by
  intro chunks
  induction chunks with
  | nil => intro _ evs; simp
  | cons p ps ih =>
    intro h evs
    have hp : p.text = "" := h p (List.mem_cons_self p ps)
    have hps : ∀ q ∈ ps, q.text = "" := fun q hq => h q (List.mem_cons_of_mem p hq)
    have hstep : deliverStep d mailbox msgId draftId { events := evs, buffer := [] } p =
        { events := evs ++ [Event.chunk p], buffer := [] } := by
      simp [deliverStep, hp]
    rw [List.foldl_cons, hstep, ih hps]
    simp

/-- The full sink trace of a dispatch that delivers interim chunks and
then the final payload, with at least one nonempty text overall: every
chunk is recorded, then exactly one flush happens, branching on
`draftOnly`. -/
theorem deliverEvents_final (d : Bool) (mailbox msgId draftId : String)
    (pre : List DeliverPayload) (pfin : DeliverPayload)
    (hpre : ∀ p ∈ pre, p.kind = ChunkKind.interim)
    (hfin : pfin.kind = ChunkKind.final)
    (hne : pushedTexts (pre ++ [pfin]) ≠ []) :
    deliverEvents d mailbox msgId draftId (pre ++ [pfin]) =
      pre.map Event.chunk ++ [Event.chunk pfin] ++
        (if d then
          [Event.call (GraphCall.createDraftReply mailbox msgId
              (String.intercalate "\n\n" (pushedTexts (pre ++ [pfin])))),
           Event.logInfo ("[outlook] draft created id=" ++ draftId ++ " for message=" ++
             msgId ++ " (" ++
             toString (String.intercalate "\n\n" (pushedTexts (pre ++ [pfin]))).length ++
             " chars)")]
         else
          [Event.call (GraphCall.reply mailbox msgId
              (String.intercalate "\n\n" (pushedTexts (pre ++ [pfin])))),
           Event.logInfo ("[outlook] replied to id=" ++ msgId ++ " (" ++
             toString (String.intercalate "\n\n" (pushedTexts (pre ++ [pfin]))).length ++
             " chars)")]) := by
  have hbuf : (if pfin.text = "" then pushedTexts pre else pushedTexts pre ++ [pfin.text]) =
      pushedTexts (pre ++ [pfin]) := by
    by_cases ht : pfin.text = "" <;> simp [ht, pushedTexts_cons]
  unfold deliverEvents
  rw [List.foldl_append, foldl_deliverStep_interim d mailbox msgId draftId pre hpre]
  simp only [List.foldl_cons, List.foldl_nil]
  rw [show deliverStep d mailbox msgId draftId
      { events := [] ++ pre.map Event.chunk, buffer := [] ++ pushedTexts pre } pfin =
      deliverStep d mailbox msgId draftId
      { events := pre.map Event.chunk, buffer := pushedTexts pre } pfin from by simp]
  unfold deliverStep
  simp only [hfin, hbuf]
  rw [if_pos ⟨trivial, hne⟩]
  by_cases hd : d <;> simp [hd]

/-- A dispatch of interim chunks only never issues a Graph call. -/
theorem deliverCalls_interim (d : Bool) (mailbox msgId draftId : String)
    (pre : List DeliverPayload) (hpre : ∀ p ∈ pre, p.kind = ChunkKind.interim) :
    deliverCalls d mailbox msgId draftId pre = [] := by
  unfold deliverCalls deliverEvents
  rw [foldl_deliverStep_interim d mailbox msgId draftId pre hpre]
  simp

/-- A dispatch ending in the final payload with at least one nonempty
text issues exactly one Graph call, chosen by `draftOnly`, carrying the
buffered texts joined with blank lines. -/
theorem deliverCalls_final (d : Bool) (mailbox msgId draftId : String)
    (pre : List DeliverPayload) (pfin : DeliverPayload)
    (hpre : ∀ p ∈ pre, p.kind = ChunkKind.interim)
    (hfin : pfin.kind = ChunkKind.final)
    (hne : pushedTexts (pre ++ [pfin]) ≠ []) :
    deliverCalls d mailbox msgId draftId (pre ++ [pfin]) =
      [if d then
        GraphCall.createDraftReply mailbox msgId
          (String.intercalate "\n\n" (pushedTexts (pre ++ [pfin])))
       else
        GraphCall.reply mailbox msgId
          (String.intercalate "\n\n" (pushedTexts (pre ++ [pfin])))] := by
  unfold deliverCalls
  rw [deliverEvents_final d mailbox msgId draftId pre pfin hpre hfin hne]
  by_cases hd : d <;> simp [hd]

/-- Claim C1: for a dispatch that produces at least one text chunk and
reaches the final signal, the flush issues `createDraftReply` (and no
`reply`) when `draftOnly` is unset or `true`, and `reply` (and no
`createDraftReply`) when `draftOnly` is explicitly `false`; the branch
is decided once per flush — the flush is a single call either way. -/
theorem draftOnly_branch_on_flush (oc : Option OutlookChannelConfig)
    (mailbox msgId draftId : String)
    (pre : List DeliverPayload) (pfin : DeliverPayload)
    (hpre : ∀ p ∈ pre, p.kind = ChunkKind.interim)
    (hfin : pfin.kind = ChunkKind.final)
    (hne : pushedTexts (pre ++ [pfin]) ≠ []) :
    (oc.bind OutlookChannelConfig.draftOnly = none ∨
        oc.bind OutlookChannelConfig.draftOnly = some true →
      deliverCalls (resolveDraftOnly oc) mailbox msgId draftId (pre ++ [pfin]) =
        [GraphCall.createDraftReply mailbox msgId
          (String.intercalate "\n\n" (pushedTexts (pre ++ [pfin])))]) ∧
    (oc.bind OutlookChannelConfig.draftOnly = some false →
      deliverCalls (resolveDraftOnly oc) mailbox msgId draftId (pre ++ [pfin]) =
        [GraphCall.reply mailbox msgId
          (String.intercalate "\n\n" (pushedTexts (pre ++ [pfin])))]) := by
  have hfinal := deliverCalls_final (resolveDraftOnly oc) mailbox msgId draftId
    pre pfin hpre hfin hne
  constructor
  · intro hset
    have hd : resolveDraftOnly oc = true := by
      rcases hset with h | h <;> simp [resolveDraftOnly, h]
    rw [hfinal, hd]
    simp
  · intro hset
    have hd : resolveDraftOnly oc = false := by
      simp [resolveDraftOnly, hset]
    rw [hfinal, hd]
    simp

theorem draftOnly_branch_on_flush_witness :
    deliverCalls (resolveDraftOnly none) "mb" "m1" "d1"
        ([⟨"Hi", ChunkKind.interim⟩] ++ [⟨"Bye", ChunkKind.final⟩]) =
      [GraphCall.createDraftReply "mb" "m1" (String.intercalate "\n\n"
        (pushedTexts ([⟨"Hi", ChunkKind.interim⟩] ++ [⟨"Bye", ChunkKind.final⟩])))] ∧
    deliverCalls (resolveDraftOnly (some { draftOnly := some false })) "mb" "m1" "d1"
        ([⟨"Hi", ChunkKind.interim⟩] ++ [⟨"Bye", ChunkKind.final⟩]) =
      [GraphCall.reply "mb" "m1" (String.intercalate "\n\n"
        (pushedTexts ([⟨"Hi", ChunkKind.interim⟩] ++ [⟨"Bye", ChunkKind.final⟩])))] :=
  ⟨(draftOnly_branch_on_flush none "mb" "m1" "d1" [⟨"Hi", ChunkKind.interim⟩]
      ⟨"Bye", ChunkKind.final⟩ (by decide) rfl (by decide)).1 (Or.inl rfl),
   (draftOnly_branch_on_flush (some { draftOnly := some false }) "mb" "m1" "d1"
      [⟨"Hi", ChunkKind.interim⟩] ⟨"Bye", ChunkKind.final⟩ (by decide) rfl (by decide)).2 rfl⟩

/-- Claim C3: chunks are accumulated in arrival order and none is sent
individually before the final signal (a dispatch of interim chunks
issues no Graph call); on the final signal exactly one outgoing body is
emitted, equal to the accumulated nonempty chunk texts joined with a
blank line. -/
theorem buffer_flush_single_body (d : Bool) (mailbox msgId draftId : String)
    (pre : List DeliverPayload) (pfin : DeliverPayload)
    (hpre : ∀ p ∈ pre, p.kind = ChunkKind.interim)
    (hfin : pfin.kind = ChunkKind.final)
    (hne : pushedTexts (pre ++ [pfin]) ≠ []) :
    deliverCalls d mailbox msgId draftId pre = [] ∧
    deliverCalls d mailbox msgId draftId (pre ++ [pfin]) =
      [if d then
        GraphCall.createDraftReply mailbox msgId
          (String.intercalate "\n\n" (pushedTexts (pre ++ [pfin])))
       else
        GraphCall.reply mailbox msgId
          (String.intercalate "\n\n" (pushedTexts (pre ++ [pfin])))] :=
  ⟨deliverCalls_interim d mailbox msgId draftId pre hpre,
   deliverCalls_final d mailbox msgId draftId pre pfin hpre hfin hne⟩

theorem buffer_flush_single_body_witness :
    deliverCalls true "mb" "m1" "d1"
        [⟨"Hello", ChunkKind.interim⟩, ⟨"World", ChunkKind.interim⟩] = [] ∧
    deliverCalls true "mb" "m1" "d1"
        ([⟨"Hello", ChunkKind.interim⟩, ⟨"World", ChunkKind.interim⟩] ++
          [⟨"Bye", ChunkKind.final⟩]) =
      [if true then
        GraphCall.createDraftReply "mb" "m1" (String.intercalate "\n\n"
          (pushedTexts ([⟨"Hello", ChunkKind.interim⟩, ⟨"World", ChunkKind.interim⟩] ++
            [⟨"Bye", ChunkKind.final⟩])))
       else
        GraphCall.reply "mb" "m1" (String.intercalate "\n\n"
          (pushedTexts ([⟨"Hello", ChunkKind.interim⟩, ⟨"World", ChunkKind.interim⟩] ++
            [⟨"Bye", ChunkKind.final⟩])))] :=
  buffer_flush_single_body true "mb" "m1" "d1"
    [⟨"Hello", ChunkKind.interim⟩, ⟨"World", ChunkKind.interim⟩]
    ⟨"Bye", ChunkKind.final⟩ (by decide) rfl (by decide)

/-- Claim C10: if the dispatch reaches its end without any nonempty
text chunk, the only Graph call of the whole message processing is the
mark-as-read — neither `reply` nor `createDraftReply` is issued. -/
theorem no_provider_call_without_text (mailbox : String) (msg : GraphMessage)
    (d : Bool) (draftId : String) (dispatch : DispatchOutcome)
    (hempty : pushedTexts dispatch.chunks = []) :
    traceCalls (processMessage mailbox msg d draftId dispatch) =
      [GraphCall.markRead mailbox msg.id] := by
  obtain ⟨chunks, err⟩ := dispatch
  have hall : ∀ p ∈ chunks, p.text = "" := by
    intro p hp
    have hnone := (List.filterMap_eq_nil_iff.mp hempty) p hp
    by_cases ht : p.text = ""
    · exact ht
    · simp [ht] at hnone
  have hdeliver : deliverEvents d mailbox msg.id draftId chunks =
      chunks.map Event.chunk := by
    unfold deliverEvents
    rw [foldl_deliverStep_all_empty d mailbox msg.id draftId chunks hall []]
    simp
  unfold processMessage
  simp only [hdeliver]
  cases err <;> simp

theorem no_provider_call_without_text_witness :
    traceCalls (processMessage "mb" { id := "m1" } true "d1"
      { chunks := [⟨"", ChunkKind.final⟩] }) = [GraphCall.markRead "mb" "m1"] :=
  no_provider_call_without_text "mb" { id := "m1" } true "d1"
    { chunks := [⟨"", ChunkKind.final⟩] } (by decide)

/-- Claim C2: for every processed message, the mark-as-read call occurs
in the trace strictly before the dispatch starts and before the reply
sink receives any chunk: any trace prefix containing the dispatch start
or a sink chunk already contains the mark-as-read call. -/
theorem markRead_before_dispatch (mailbox : String) (msg : GraphMessage)
    (d : Bool) (draftId : String) (dispatch : DispatchOutcome) (n : Nat)
    (h : (∃ ctx, Event.dispatchStart ctx ∈
            (processMessage mailbox msg d draftId dispatch).take n) ∨
         (∃ p, Event.chunk p ∈ (processMessage mailbox msg d draftId dispatch).take n)) :
    Event.call (GraphCall.markRead mailbox msg.id) ∈
      (processMessage mailbox msg d draftId dispatch).take n := by
  match n with
  | 0 => simp at h
  | 1 =>
    exfalso
    simp [processMessage, List.take_succ_cons] at h
  | (k + 2) =>
    simp [processMessage, List.take_succ_cons]

theorem markRead_before_dispatch_witness :
    Event.call (GraphCall.markRead "mb" "m1") ∈
      (processMessage "mb" { id := "m1" } true "d1" { chunks := [] }).take 3 :=
  markRead_before_dispatch "mb" { id := "m1" } true "d1" { chunks := [] } 3
    (Or.inl ⟨buildInboundCtx "mb" { id := "m1" }, by decide⟩)

/-- Claim C8: the session key carried by the context handed to the
dispatch equals `"outlook:"` followed by the lowercased sender address;
the dispatch-start event with exactly this context occurs in every
processed message's trace, and two messages whose sender addresses agree
up to case produce the identical session key. -/
theorem session_key_derivation (mailbox : String) (msg m1 m2 : GraphMessage)
    (d : Bool) (draftId : String) (dispatch : DispatchOutcome) :
    (buildInboundCtx mailbox msg).SessionKey =
      "outlook:" ++ lowerString (senderAddress msg) ∧
    Event.dispatchStart (buildInboundCtx mailbox msg) ∈
      processMessage mailbox msg d draftId dispatch ∧
    (lowerString (senderAddress m1) = lowerString (senderAddress m2) →
      (buildInboundCtx mailbox m1).SessionKey = (buildInboundCtx mailbox m2).SessionKey) := by
  refine ⟨rfl, ?_, ?_⟩
  · simp [processMessage]
  · intro h
    simp [buildInboundCtx, sessionKey, h]

theorem session_key_derivation_witness :
    (buildInboundCtx "mb" { id := "m1", fromAddress := some "A@B.com" }).SessionKey =
      "outlook:" ++ lowerString (senderAddress { id := "m1", fromAddress := some "A@B.com" }) ∧
    (buildInboundCtx "mb" { id := "m1", fromAddress := some "A@B.com" }).SessionKey =
      (buildInboundCtx "mb" { id := "m2", fromAddress := some "a@b.com" }).SessionKey :=
  ⟨(session_key_derivation "mb" { id := "m1", fromAddress := some "A@B.com" }
      { id := "m1", fromAddress := some "A@B.com" }
      { id := "m2", fromAddress := some "a@b.com" } true "d1" { chunks := [] }).1,
   (session_key_derivation "mb" { id := "m1", fromAddress := some "A@B.com" }
      { id := "m1", fromAddress := some "A@B.com" }
      { id := "m2", fromAddress := some "a@b.com" } true "d1" { chunks := [] }).2.2
     (by decide)⟩

/-- Claim C6: a dispatch error for message A is caught and logged with
A's id, does not escape A's processing (the cycle trace is still the
plain concatenation of both messages' traces), and the next message B
of the same cycle is still fully processed (its mark-as-read call is in
the cycle trace). -/
theorem dispatch_error_does_not_block_next (mailbox : String) (d : Bool)
    (wA wB : MsgWork) (e : String) (herr : wA.dispatch.error = some e) :
    processCycle mailbox d [wA, wB] =
      Event.call (GraphCall.listUnread mailbox 20) ::
        (processMessage mailbox wA.msg d wA.draftId wA.dispatch ++
          processMessage mailbox wB.msg d wB.draftId wB.dispatch) ∧
    Event.logError ("[outlook] dispatch failed for id=" ++ wA.msg.id ++ ": " ++ e) ∈
      processCycle mailbox d [wA, wB] ∧
    Event.call (GraphCall.markRead mailbox wB.msg.id) ∈
      processCycle mailbox d [wA, wB] := by
  refine ⟨by simp [processCycle], ?_, ?_⟩
  · simp [processCycle, processMessage, herr]
  · simp [processCycle, processMessage]

theorem dispatch_error_does_not_block_next_witness :
    Event.call (GraphCall.markRead "mb" "b1") ∈
      processCycle "mb" true
        [{ msg := { id := "a1" }, dispatch := { chunks := [], error := some "boom" } },
         { msg := { id := "b1" }, dispatch := { chunks := [] } }] :=
  (dispatch_error_does_not_block_next "mb" true
    { msg := { id := "a1" }, dispatch := { chunks := [], error := some "boom" } }
    { msg := { id := "b1" }, dispatch := { chunks := [] } } "boom" rfl).2.2

/-- Claim C7: when the abort signal fires during the inter-cycle sleep,
the run ends with that cycle — the remaining scripted cycles contribute
no events (in particular no network calls), the run is independent of
whatever would have followed, the Sleeping state transitions to Stopped
on abort, and Stopped is terminal. -/
theorem abort_during_sleep_stops_loop (mailbox : String) (d : Bool)
    (c : CycleScript) (rest rest2 : List CycleScript)
    (habort : c.abortDuringSleep = true) :
    monitorRun mailbox d (c :: rest) = processCycle mailbox d c.work ∧
    monitorRun mailbox d (c :: rest) = monitorRun mailbox d (c :: rest2) ∧
    pollerStep PollerState.Sleeping true = PollerState.Stopped ∧
    (∀ b, pollerStep PollerState.Stopped b = PollerState.Stopped) := by
  refine ⟨?_, ?_, rfl, ?_⟩
  · simp [monitorRun, habort]
  · simp [monitorRun, habort]
  · intro b
    cases b <;> rfl

theorem abort_during_sleep_stops_loop_witness :
    monitorRun "mb" true
        [{ work := [], abortDuringSleep := true },
         { work := [{ msg := { id := "late" }, dispatch := { chunks := [] } }] }] =
      processCycle "mb" true [] :=
  (abort_during_sleep_stops_loop "mb" true { work := [], abortDuringSleep := true }
    [{ work := [{ msg := { id := "late" }, dispatch := { chunks := [] } }] }] [] rfl).1

/-- Claim C4: a cached token with more than 60 s of validity left is
returned unchanged with no network call; otherwise exactly one
client-credentials request is made, the new token is stored with expiry
`now + expires_in` (seconds, hence `* 1000` in ms), and returned. -/
theorem token_cache_sixty_second_skew (cache : Option CachedToken) (now : Nat)
    (resp : TokenResponse) :
    (∀ tc, cache = some tc → now + 60000 < tc.expiresAt →
      getGraphAccessToken cache now resp =
        { token := tc.token, cache := some tc, networkCalls := 0 }) ∧
    ((∀ tc, cache = some tc → tc.expiresAt ≤ now + 60000) →
      getGraphAccessToken cache now resp =
        { token := resp.accessToken
          cache := some { token := resp.accessToken
                          expiresAt := now + resp.expiresIn * 1000 }
          networkCalls := 1 }) := by
  constructor
  · intro tc hc hlt
    subst hc
    simp [getGraphAccessToken, hlt]
  · intro hle
    cases hc : cache with
    | none => simp [getGraphAccessToken]
    | some tc =>
      have := hle tc hc
      simp [getGraphAccessToken, Nat.not_lt.mpr this]

theorem token_cache_sixty_second_skew_witness :
    getGraphAccessToken (some { token := "tok", expiresAt := 3600000 }) 3000000
        { accessToken := "fresh", expiresIn := 3600 } =
      { token := "tok", cache := some { token := "tok", expiresAt := 3600000 }
        networkCalls := 0 } ∧
    getGraphAccessToken (some { token := "tok", expiresAt := 3600000 }) 3545000
        { accessToken := "fresh", expiresIn := 3600 } =
      { token := "fresh"
        cache := some { token := "fresh", expiresAt := 3545000 + 3600 * 1000 }
        networkCalls := 1 } :=
  ⟨(token_cache_sixty_second_skew (some { token := "tok", expiresAt := 3600000 }) 3000000
      { accessToken := "fresh", expiresIn := 3600 }).1
      { token := "tok", expiresAt := 3600000 } rfl (by decide),
   (token_cache_sixty_second_skew (some { token := "tok", expiresAt := 3600000 }) 3545000
      { accessToken := "fresh", expiresIn := 3600 }).2
      (fun tc h => by
        simp only [Option.some.injEq] at h
        subst h
        decide)⟩

/-- Fixture: a message received later than `msgEarlier`. -/
def msgLater : GraphMessage :=
  { id := "m-late", receivedDateTime := 5000 }

/-- Fixture: a message received earlier than `msgLater`. -/
def msgEarlier : GraphMessage :=
  { id := "m-early", receivedDateTime := 3000 }

/-- Fixture: a transport that ignores the requested `$orderby` and
returns the later message first. -/
def outOfOrderTransport : ListRequest → List GraphMessage :=
  fun _ => [msgLater, msgEarlier]

/-- Fixture: a transport that honors the requested `$orderby`. -/
def inOrderTransport : ListRequest → List GraphMessage :=
  fun _ => [msgEarlier, msgLater]

/-- Claim C5 counterexample: the claim says `listUnread` results are in
non-decreasing receive-time order for ANY ordering returned by the
underlying transport; but `listUnreadMessages` returns the transport's
response unchanged, so a transport that ignores the `$orderby` request
parameter yields an out-of-order result. -/
theorem listUnread_transport_order_counterexample :
    ascendingByReceived (listUnreadMessages outOfOrderTransport "helpdesk@example.com" 20)
      = false := by
  decide

/-- Claim C5 (amended): `listUnreadMessages` always sends
`$orderby = receivedDateTime asc` to the transport and returns the
transport's response unchanged; hence the result is in non-decreasing
receive-time order whenever the transport honors the requested
ordering. -/
theorem listUnread_requests_ascending_order
    (transport : ListRequest → List GraphMessage) (mailbox : String) (top : Nat) :
    (listUnreadRequest mailbox top).orderby = "receivedDateTime asc" ∧
    listUnreadMessages transport mailbox top = transport (listUnreadRequest mailbox top) ∧
    (ascendingByReceived (transport (listUnreadRequest mailbox top)) = true →
      ascendingByReceived (listUnreadMessages transport mailbox top) = true) :=
  ⟨rfl, rfl, fun h => h⟩

theorem listUnread_requests_ascending_order_witness :
    ascendingByReceived (listUnreadMessages inOrderTransport "helpdesk@example.com" 20)
      = true :=
  (listUnread_requests_ascending_order inOrderTransport "helpdesk@example.com" 20).2.2
    (by decide)

/-- Changing only `draftOnly` never changes what `sendText` does: the
outbound path does not read the flag. -/
theorem outlookSendText_setDraftOnly (cfg : OpenClawCfg) (env : EnvVars)
    (recipient text : String) (dOpt : Option Bool) :
    outlookSendText (setDraftOnly cfg dOpt) env recipient text =
      outlookSendText cfg env recipient text := by
  rcases cfg with ⟨ch⟩
  cases ch with
  | none => rfl
  | some chv =>
    rcases chv with ⟨oco⟩
    cases oco with
    | none => rfl
    | some oc => rfl

/-- Claim C9: with resolvable credentials and a configured (nonempty
trimmed) mailbox, `sendText` issues exactly one `sendMail` call with
the fixed subject "Message from OpenClaw" — no draft, no reply, no
buffering — and its behaviour is independent of `draftOnly`. -/
theorem outbound_send_ignores_draftOnly (cfg : OpenClawCfg) (env : EnvVars)
    (recipient text : String) (creds : OutlookCredentials) (mb : String)
    (hc : resolveOutlookCredentials (resolveOutlookChannelConfig cfg) env = some creds)
    (hm : ((resolveOutlookChannelConfig cfg).bind OutlookChannelConfig.mailbox).map
        trimString = some mb)
    (hne : mb ≠ "") :
    outlookSendText cfg env recipient text =
      Except.ok ({ channel := "outlook", messageId := "sent" },
        [GraphCall.sendMail mb recipient "Message from OpenClaw" text]) ∧
    (∀ dOpt, outlookSendText (setDraftOnly cfg dOpt) env recipient text =
      outlookSendText cfg env recipient text) := by
  constructor
  · simp only [outlookSendText]
    rw [hc, hm]
    simp [hne]
  · intro dOpt
    exact outlookSendText_setDraftOnly cfg env recipient text dOpt

/-- Fixture: a fully populated outlook channel config. -/
def ocFull : OutlookChannelConfig :=
  { appId := some "app-id"
    appPassword := some "app-secret"
    tenantId := some "tenant-id"
    mailbox := some "helpdesk@example.com" }

/-- Fixture: a fully configured host config for the outbound path. -/
def cfgFull : OpenClawCfg :=
  { channels := some { outlook := some ocFull } }

/-- Fixture: no environment fallbacks set. -/
def envNone : EnvVars := {}

theorem outbound_send_ignores_draftOnly_witness :
    outlookSendText cfgFull envNone "x@y.com" "hello" =
      Except.ok ({ channel := "outlook", messageId := "sent" },
        [GraphCall.sendMail "helpdesk@example.com" "x@y.com"
          "Message from OpenClaw" "hello"]) :=
  (outbound_send_ignores_draftOnly cfgFull envNone "x@y.com" "hello"
    { appId := "app-id", appSecret := "app-secret", tenantId := "tenant-id" }
    "helpdesk@example.com" (by decide) (by decide) (by decide)).1
